import Mathlib

/-!
Verification of the generation-request lifecycle controller of the NexCraft
dashboard (`src/components/Dashboard.tsx`) and of the video capability
(`geminiService`).  The TypeScript code is shallowly embedded: React state
becomes an explicit `DashState`, each `Date.now()` call becomes a read of an
abstract clock `clock : Nat → Nat` at successive tick indices, the four
capability calls become an oracle record `Capabilities` supplying each call's
settlement (`Except Unit` models a thrown / rejected promise), and every
`setMessages` functional update is recorded as a transcript snapshot.
-/

namespace NexCraft

/-- `Role` enum from `types.ts` (`USER = 'user'`, `ASSISTANT = 'model'`). -/
inductive Role where
  | USER
  | ASSISTANT
deriving DecidableEq, Repr

/-- `ContentType` enum from `types.ts`. -/
inductive ContentType where
  | TEXT
  | IMAGE
  | VIDEO
  | RESEARCH
deriving DecidableEq, Repr

/-- `GenerationMode` enum from `types.ts`. -/
inductive GenerationMode where
  | COPYWRITING
  | RESEARCH
  | VISUAL
  | VIDEO
deriving DecidableEq, Repr

/-- One grounding source entry `{ uri, title }` from `types.ts`. -/
structure GroundingSource where
  uri : String
  title : String
deriving DecidableEq, Repr

/-- The optional `metadata` bag of a `Message` (`types.ts`). -/
structure Metadata where
  imageUrl : Option String := none
  videoUrl : Option String := none
  sources : Option (List GroundingSource) := none
  thinking : Option Bool := none
deriving DecidableEq, Repr

/-- `MediaAttachment` from `types.ts`. -/
structure MediaAttachment where
  mimeType : String
  data : String
  name : Option String := none
deriving DecidableEq, Repr

/-- `Message` from `types.ts`; `timestamp` is epoch milliseconds as a `Nat`. -/
structure Message where
  id : String
  role : Role
  content : String
  type : ContentType
  attachments : Option (List MediaAttachment) := none
  metadata : Option Metadata := none
  timestamp : Nat
deriving DecidableEq, Repr

/-- `ProjectContext` from `types.ts`. -/
structure ProjectContext where
  brandName : String
  industry : String
  tone : String
deriving DecidableEq, Repr

/-- The `file` state of the dashboard: `{ name, data, mime }`. -/
structure FileData where
  name : String
  data : String
  mime : String
deriving DecidableEq, Repr

/-- Result of `generateStrategy` (`geminiService`): `{ text }`. -/
structure StrategyResult where
  text : String
deriving DecidableEq, Repr

/-- Result of `conductResearch` (`geminiService`): `{ text, sources }`. -/
structure ResearchResult where
  text : String
  sources : List GroundingSource
deriving DecidableEq, Repr

/-- One `inlineData` part passed to `generateStrategy`. -/
structure InlineAttachment where
  mimeType : String
  data : String
deriving DecidableEq, Repr

/-- Oracle for the four capability calls of `geminiService` as seen by the
controller: each field gives the settlement of the corresponding call at the
arguments the controller passes (`Except.error` models a rejected promise). -/
structure Capabilities where
  generateStrategy : String → String → List InlineAttachment → Except Unit StrategyResult
  conductResearch : String → Except Unit ResearchResult
  generateProfessionalImage : String → Option String → Except Unit (Option String)
  generateCinematicVideo : String → Except Unit (Option String)

/-- `INITIAL_MESSAGE` from `Dashboard.tsx`, with `Date.now()` abstracted as
the timestamp argument (the module-load clock read). -/
def INITIAL_MESSAGE (t : Nat) : Message :=
  { id := "welcome"
    role := .ASSISTANT
    content := "# OmniCreative Studio\n\nWelcome. I am your AI Creative Director. I can assist you with:\n\n*   **Strategic Copywriting** (Ads, PR, Social)\n*   **Market Research** (Competitor analysis, Trends)\n*   **Visuals** (High-end Image Generation)\n*   **Cinematics** (Veo Video Production)\n\nWhat is our project focus today?"
    type := .TEXT
    timestamp := t }

/-- The fixed error text appended by the `catch` block of `handleSubmit`. -/
def errorText : String :=
  "An error occurred while processing your request. Please check your API configuration."

/-- The user-turn message built at the top of `handleSubmit`.  Its `id` reads
the clock at tick `n` (`Date.now().toString()`) and its `timestamp` reads the
clock again at tick `n + 1`. -/
def userMessage (clock : Nat → Nat) (n : Nat) (inp : String) (fl : Option FileData) : Message :=
  { id := Nat.repr (clock n)
    role := .USER
    content := inp ++ (match fl with
      | some f => "\n[Attached: " ++ f.name ++ "]"
      | none => "")
    type := .TEXT
    timestamp := clock (n + 1) }

/-- The `resultMessage` literal built at the top of the `try` block: id is
`(Date.now() + 1).toString()` at tick `n + 2`, timestamp is the read at tick
`n + 3`. -/
def blankResult (clock : Nat → Nat) (n : Nat) : Message :=
  { id := Nat.repr (clock (n + 2) + 1)
    role := .ASSISTANT
    content := ""
    type := .TEXT
    timestamp := clock (n + 3) }

/-- The message appended by the `catch` block: id from the clock read at tick
`k`, timestamp from the read at tick `k + 1`. -/
def errMessage (clock : Nat → Nat) (k : Nat) : Message :=
  { id := Nat.repr (clock k)
    role := .ASSISTANT
    content := errorText
    type := .TEXT
    timestamp := clock (k + 1) }

/-- The transient `temp-video` placeholder appended in VIDEO mode; its
timestamp is the clock read at tick `n + 4`. -/
def tempVideoMessage (clock : Nat → Nat) (n : Nat) : Message :=
  { id := "temp-video"
    role := .ASSISTANT
    content := "Producing cinematic video... This may take a minute."
    type := .TEXT
    metadata := some { thinking := some true }
    timestamp := clock (n + 4) }

/-- `contextString` computed inside `handleSubmit`. -/
def contextString (ctx : ProjectContext) : String :=
  "Brand: " ++ ctx.brandName ++ ", Industry: " ++ ctx.industry ++ ", Tone: " ++ ctx.tone

/-- The attachments argument passed to `generateStrategy`:
`currentFile ? [{ mimeType, data }] : []`. -/
def attachParts (fl : Option FileData) : List InlineAttachment :=
  match fl with
  | some f => [{ mimeType := f.mime, data := f.data }]
  | none => []

/-- Output of one accepted `handleSubmit` run: the ordered list of transcript
values produced by each `setMessages` update (`snaps`), the final transcript
(`msgs`), and the next unused clock tick. -/
structure SubmitOut where
  snaps : List (List Message)
  msgs : List Message
  next : Nat
deriving Repr

/-- The body of `handleSubmit` after the guard (`Dashboard.tsx` lines 64-158),
for an accepted submission: appends the user message, dispatches on `mode`,
manages the VIDEO placeholder, and appends either the result message or the
`catch` error message. -/
def submitCore (clock : Nat → Nat) (n : Nat) (caps : Capabilities) (ctx : ProjectContext)
    (mode : GenerationMode) (inp : String) (fl : Option FileData)
    (ms : List Message) : SubmitOut :=
  let u := userMessage clock n inp fl
  let m1 := ms ++ [u]
  let r0 := blankResult clock n
  match mode with
  | .COPYWRITING =>
    match caps.generateStrategy inp (contextString ctx) (attachParts fl) with
    | .ok res =>
      let rm := { r0 with content := res.text }
      ⟨[m1, m1 ++ [rm]], m1 ++ [rm], n + 4⟩
    | .error _ =>
      let em := errMessage clock (n + 4)
      ⟨[m1, m1 ++ [em]], m1 ++ [em], n + 6⟩
  | .RESEARCH =>
    match caps.conductResearch inp with
    | .ok res =>
      let rm := { r0 with
                  content := res.text
                  type := .RESEARCH
                  metadata := some { sources := some res.sources } }
      ⟨[m1, m1 ++ [rm]], m1 ++ [rm], n + 4⟩
    | .error _ =>
      let em := errMessage clock (n + 4)
      ⟨[m1, m1 ++ [em]], m1 ++ [em], n + 6⟩
  | .VISUAL =>
    match caps.generateProfessionalImage inp (fl.map FileData.data) with
    | .ok (some img) =>
      let rm := { r0 with
                  type := .IMAGE
                  content := "Generated concept based on: \"" ++ inp ++ "\""
                  metadata := some { imageUrl := some img } }
      ⟨[m1, m1 ++ [rm]], m1 ++ [rm], n + 4⟩
    | .ok none =>
      let rm := { r0 with content := "Failed to generate image. Please try again." }
      ⟨[m1, m1 ++ [rm]], m1 ++ [rm], n + 4⟩
    | .error _ =>
      let em := errMessage clock (n + 4)
      ⟨[m1, m1 ++ [em]], m1 ++ [em], n + 6⟩
  | .VIDEO =>
    let tv := tempVideoMessage clock n
    let m2 := m1 ++ [tv]
    match caps.generateCinematicVideo inp with
    | .ok v =>
      let m3 := m2.filter (fun m => m.id != "temp-video")
      let rm := match v with
        | some url => { r0 with
                        type := .VIDEO
                        content := "Render complete for scene: \"" ++ inp ++ "\""
                        metadata := some { videoUrl := some url } }
        | none => { r0 with content := "Video generation failed or was cancelled." }
      ⟨[m1, m2, m3, m3 ++ [rm]], m3 ++ [rm], n + 5⟩
    | .error _ =>
      let em := errMessage clock (n + 5)
      ⟨[m1, m2, m2 ++ [em]], m2 ++ [em], n + 7⟩

/-- The dashboard component state relevant to `handleSubmit`. -/
structure DashState where
  messages : List Message
  input : String
  isLoading : Bool
  mode : GenerationMode
  file : Option FileData
deriving Repr

/-- Output of `handleSubmit`: transcript snapshots, the final component
state, and the next unused clock tick. -/
structure HandleOut where
  snaps : List (List Message)
  state : DashState
  next : Nat
deriving Repr

/-- `handleSubmit` from `Dashboard.tsx`: the guard
`if ((!input.trim() && !file) || isLoading) return` rejects the call,
otherwise the lifecycle of `submitCore` runs; the accepted path clears the
input buffer and pending file and leaves `isLoading` false (the `finally`
block). -/
def handleSubmit (clock : Nat → Nat) (n : Nat) (caps : Capabilities) (ctx : ProjectContext)
    (s : DashState) : HandleOut :=
  if (s.input.trim == "" && s.file.isNone) || s.isLoading then
    ⟨[], s, n⟩
  else
    let o := submitCore clock n caps ctx s.mode s.input s.file s.messages
    ⟨o.snaps,
     { messages := o.msgs, input := "", isLoading := false, mode := s.mode, file := none },
     o.next⟩

/-- The guard condition under which a submission is accepted when the
controller is idle: input not empty/whitespace-only, or a file attached. -/
def acceptedInput (inp : String) (fl : Option FileData) : Bool :=
  !(inp.trim == "" && fl.isNone)

/-- The caller-chosen data of one accepted submission: capability oracle,
project context, active mode, raw input and pending attachment. -/
structure SubmitParams where
  caps : Capabilities
  ctx : ProjectContext
  mode : GenerationMode
  inp : String
  fl : Option FileData

/-- Quiescent reachable states of the transcript: tick index together with
the transcript after any finite sequence of accepted submissions whose
parameters satisfy `P`. -/
inductive ReachF (clock : Nat → Nat) (P : SubmitParams → Prop) : Nat → List Message → Prop where
  | init : ReachF clock P 1 [INITIAL_MESSAGE (clock 0)]
  | step {n : Nat} {ms : List Message} (p : SubmitParams) :
      ReachF clock P n ms → P p → acceptedInput p.inp p.fl = true →
      ReachF clock P (submitCore clock n p.caps p.ctx p.mode p.inp p.fl ms).next
        (submitCore clock n p.caps p.ctx p.mode p.inp p.fl ms).msgs

/-- All reachable transcript states: quiescent states plus every intermediate
snapshot of an accepted submission issued from a quiescent state. -/
def ReachA (clock : Nat → Nat) (P : SubmitParams → Prop) (ms : List Message) : Prop :=
  (∃ n, ReachF clock P n ms) ∨
  ∃ n ms0 p, ReachF clock P n ms0 ∧ P p ∧ acceptedInput p.inp p.fl = true ∧
    ms ∈ (submitCore clock n p.caps p.ctx p.mode p.inp p.fl ms0).snaps

/-- No restriction on submissions. -/
def AnyParams : SubmitParams → Prop := fun _ => True

namespace GeminiService

/-- The `window.aistudio` hook consulted by `ensureApiKey`: the settlements of
`hasSelectedApiKey()` and `openSelectKey()` (each may reject). -/
structure KeySelector where
  hasSelectedApiKey : Except Unit Bool
  openSelectKey : Except Unit Unit

/-- `ensureApiKey` from `geminiService`: when the hook is present, awaits
`hasSelectedApiKey()`, and when that yields `false`, awaits `openSelectKey()`;
a rejection of either awaited call propagates. -/
def ensureApiKey (w : Option KeySelector) : Except Unit Unit :=
  match w with
  | none => .ok ()
  | some ks =>
    match ks.hasSelectedApiKey with
    | .error e => .error e
    | .ok true => .ok ()
    | .ok false => ks.openSelectKey

/-- The state of the remote video operation as observed by the poll loop. -/
structure VideoOp where
  done : Bool
  videoUri : Option String
deriving DecidableEq, Repr

/-- The poll loop of `generateCinematicVideo`
(`while (!operation.done) { ...; operation = await getVideosOperation(...) }`):
`polls` is the stream of settlements of successive `getVideosOperation`
awaits; `none` means the loop has not settled within the modelled stream. -/
def pollVideo : List (Except Unit VideoOp) → VideoOp → Option (Except Unit VideoOp)
  | _, op@{ done := true, videoUri := _ } => some (.ok op)
  | [], _ => none
  | .error e :: _, _ => some (.error e)
  | .ok op2 :: rest, _ => pollVideo rest op2

/-- The environment of one `generateCinematicVideo` call: the
`window.aistudio` hook, the settlement of `generateVideos`, the stream of
poll settlements, and the settlement of the final
`fetch` / `blob` / `createObjectURL` step (an object URL on success). -/
structure VideoEnv where
  keySel : Option KeySelector
  startOp : Except Unit VideoOp
  polls : List (Except Unit VideoOp)
  fetchResult : Except Unit String

/-- `generateCinematicVideo` from `geminiService`: `ensureApiKey` runs before
the `try` block, so its rejection propagates; inside the `try`, a failure of
the start call, of a poll await, or of the final fetch is caught and turned
into `null`, as is an absent `videoUri`; `none` models a call that never
settles because the poll loop never observes `done`. -/
def generateCinematicVideo (env : VideoEnv) : Option (Except Unit (Option String)) :=
  match ensureApiKey env.keySel with
  | .error e => some (.error e)
  | .ok _ =>
    match env.startOp with
    | .error _ => some (.ok none)
    | .ok op =>
      match pollVideo env.polls op with
      | none => none
      | some (.error _) => some (.ok none)
      | some (.ok opDone) =>
        match opDone.videoUri with
        | none => some (.ok none)
        | some _ =>
          match env.fetchResult with
          | .error _ => some (.ok none)
          | .ok url => some (.ok (some url))

end GeminiService

/-- The default project context of the dashboard
(`LuxNova` / `Tech / Lifestyle` / `Futuristic, Premium, Minimalist`). -/
def ctx0 : ProjectContext :=
  { brandName := "LuxNova"
    industry := "Tech / Lifestyle"
    tone := "Futuristic, Premium, Minimalist" }

/-- A capability oracle on which every capability call rejects. -/
def capsReject : Capabilities :=
  { generateStrategy := fun _ _ _ => .error ()
    conductResearch := fun _ => .error ()
    generateProfessionalImage := fun _ _ => .error ()
    generateCinematicVideo := fun _ => .error () }

/-- A capability oracle on which every capability call succeeds but the media
capabilities return no media. -/
def capsEmptyMedia : Capabilities :=
  { generateStrategy := fun _ _ _ => .ok { text := "Shine Beyond." }
    conductResearch := fun _ => .ok { text := "trend report", sources := [] }
    generateProfessionalImage := fun _ _ => .ok none
    generateCinematicVideo := fun _ => .ok none }

/-- The identity clock used by the concrete evaluations. -/
def tickClock : Nat → Nat := fun k => k

/-- The decimal digit list of `n`, most significant digit first, as characters
(the specification of what `Nat.toDigits 10` produces for nonzero `n`). -/
def digitsRev (n : Nat) : List Char :=
  ((Nat.digits 10 n).map Nat.digitChar).reverse

lemma digitChar_isDigit : ∀ m : Nat, m < 10 → (Nat.digitChar m).isDigit = true := by decide

lemma toDigitsCore_all_digits :
    ∀ (fuel n : Nat) (ds : List Char), (∀ c ∈ ds, c.isDigit = true) →
      ∀ c ∈ Nat.toDigitsCore 10 fuel n ds, c.isDigit = true := by
  intro fuel
  induction fuel with
  | zero => intro n ds hds c hc; exact hds c hc
  | succ f ih =>
    intro n ds hds c hc
    have hcons : ∀ c2 ∈ Nat.digitChar (n % 10) :: ds, c2.isDigit = true := by
      intro c2 hc2
      rcases List.mem_cons.mp hc2 with h1 | h1
      · subst h1; exact digitChar_isDigit _ (Nat.mod_lt _ (by omega))
      · exact hds c2 h1
    simp only [Nat.toDigitsCore] at hc
    by_cases h : n / 10 = 0
    · rw [if_pos h] at hc
      exact hcons c hc
    · rw [if_neg h] at hc
      exact ih _ _ hcons c hc

lemma repr_all_digits (n : Nat) : ∀ c ∈ (Nat.repr n).data, c.isDigit = true := by
  intro c hc
  have hd : (Nat.repr n).data = Nat.toDigitsCore 10 (n + 1) n [] := rfl
  rw [hd] at hc
  exact toDigitsCore_all_digits (n + 1) n [] (by intro c2 hc2; cases hc2) c hc

lemma repr_ne_welcome (n : Nat) : Nat.repr n ≠ "welcome" := by
  intro h
  have hw : ('w' : Char).isDigit = true := by
    have hd := repr_all_digits n
    rw [h] at hd
    exact hd 'w' (by decide)
  exact absurd hw (by decide)

lemma repr_ne_tempvideo (n : Nat) : Nat.repr n ≠ "temp-video" := by
  intro h
  have hw : ('t' : Char).isDigit = true := by
    have hd := repr_all_digits n
    rw [h] at hd
    exact hd 't' (by decide)
  exact absurd hw (by decide)

lemma toDigitsCore_eq_digitsRev :
    ∀ (fuel n : Nat) (ds : List Char), 0 < fuel → n < 10 ^ fuel →
      Nat.toDigitsCore 10 fuel n ds =
        (if n = 0 then [Nat.digitChar 0] else digitsRev n) ++ ds := by
  intro fuel
  induction fuel with
  | zero => intro n ds h0 _; exact absurd h0 (by omega)
  | succ f ih =>
    intro n ds _ hlt
    simp only [Nat.toDigitsCore]
    by_cases hdiv : n / 10 = 0
    · rw [if_pos hdiv]
      have hn10 : n < 10 := (Nat.div_eq_zero_iff (by omega)).mp hdiv
      by_cases hn : n = 0
      · subst hn; simp
      · rw [if_neg hn]
        have hdig : Nat.digits 10 n = [n] := by
          rw [Nat.digits_def' (by norm_num) (Nat.pos_of_ne_zero hn), hdiv,
            Nat.mod_eq_of_lt hn10, Nat.digits_zero]
        simp [digitsRev, hdig, Nat.mod_eq_of_lt hn10]
    · rw [if_neg hdiv]
      have hn10 : 10 ≤ n := by
        by_contra hc
        exact hdiv ((Nat.div_eq_zero_iff (by omega)).mpr (by omega))
      have hf : 0 < f := by
        rcases Nat.eq_zero_or_pos f with h | h
        · subst h; simp at hlt; omega
        · exact h
      have hq : n / 10 < 10 ^ f := by
        rw [Nat.div_lt_iff_lt_mul (by omega)]
        calc n < 10 ^ (f + 1) := hlt
          _ = 10 ^ f * 10 := by rw [Nat.pow_succ]
      rw [ih (n / 10) (Nat.digitChar (n % 10) :: ds) hf hq]
      have hq0 : ¬ n / 10 = 0 := hdiv
      rw [if_neg hq0, if_neg (by omega : ¬ n = 0)]
      have hsplit : digitsRev n = digitsRev (n / 10) ++ [Nat.digitChar (n % 10)] := by
        have hdig : Nat.digits 10 n = n % 10 :: Nat.digits 10 (n / 10) :=
          Nat.digits_def' (by norm_num) (by omega)
        simp [digitsRev, hdig]
      rw [hsplit, List.append_assoc, List.singleton_append]

lemma toDigits_eq_digitsRev (n : Nat) :
    Nat.toDigits 10 n = if n = 0 then [Nat.digitChar 0] else digitsRev n := by
  have hlt : n < 10 ^ (n + 1) :=
    lt_of_lt_of_le (Nat.lt_pow_self (by norm_num) n)
      (Nat.pow_le_pow_right (by norm_num) (Nat.le_succ n))
  have h := toDigitsCore_eq_digitsRev (n + 1) n [] (Nat.succ_pos n) hlt
  simpa [Nat.toDigits] using h

lemma digitChar_inj : ∀ a < 10, ∀ b < 10, Nat.digitChar a = Nat.digitChar b → a = b := by
  decide

lemma map_digitChar_inj :
    ∀ (l1 l2 : List Nat), (∀ x ∈ l1, x < 10) → (∀ x ∈ l2, x < 10) →
      l1.map Nat.digitChar = l2.map Nat.digitChar → l1 = l2 := by
  intro l1
  induction l1 with
  | nil =>
    intro l2 _ _ h
    cases l2 with
    | nil => rfl
    | cons b t => simp at h
  | cons a t ih =>
    intro l2 h1 h2 h
    cases l2 with
    | nil => simp at h
    | cons b t2 =>
      simp only [List.map_cons, List.cons.injEq] at h
      have ha : a = b :=
        digitChar_inj a (h1 a (by simp)) b (h2 b (by simp)) h.1
      have ht : t = t2 :=
        ih t2 (fun x hx => h1 x (by simp [hx])) (fun x hx => h2 x (by simp [hx])) h.2
      rw [ha, ht]

lemma digitsRev_inj {a b : Nat} (h : digitsRev a = digitsRev b) : a = b := by
  have h2 : (Nat.digits 10 a).map Nat.digitChar = (Nat.digits 10 b).map Nat.digitChar := by
    have h3 := congrArg List.reverse h
    simpa [digitsRev] using h3
  have h3 : Nat.digits 10 a = Nat.digits 10 b :=
    map_digitChar_inj _ _ (fun x hx => Nat.digits_lt_base (by norm_num) hx)
      (fun x hx => Nat.digits_lt_base (by norm_num) hx) h2
  exact Nat.digits_inj_iff.mp h3

lemma digitsRev_ne_zero_char {b : Nat} (hb : b ≠ 0) :
    digitsRev b ≠ [Nat.digitChar 0] := by
  intro h
  have h2 : (Nat.digits 10 b).map Nat.digitChar = [Nat.digitChar 0] := by
    have h3 := congrArg List.reverse h
    simpa [digitsRev] using h3
  have hd : Nat.digits 10 b = [0] := by
    cases hdig : Nat.digits 10 b with
    | nil => rw [hdig] at h2; simp at h2
    | cons d t =>
      rw [hdig] at h2
      simp only [List.map_cons, List.cons.injEq] at h2
      have ht : t = [] := by
        have := h2.2
        cases t with
        | nil => rfl
        | cons x xs => simp at this
      have hdlt : d < 10 :=
        Nat.digits_lt_base (by norm_num) (by rw [hdig]; simp)
      have hd0 : d = 0 := digitChar_inj d hdlt 0 (by norm_num) h2.1
      rw [ht, hd0]
  have : b = 0 := by
    have h4 := Nat.ofDigits_digits 10 b
    rw [hd] at h4
    simpa [Nat.ofDigits] using h4.symm
  exact hb this

lemma repr_inj {a b : Nat} (h : Nat.repr a = Nat.repr b) : a = b := by
  have hd : Nat.toDigits 10 a = Nat.toDigits 10 b := congrArg String.data h
  rw [toDigits_eq_digitsRev, toDigits_eq_digitsRev] at hd
  by_cases ha : a = 0 <;> by_cases hb : b = 0
  · rw [ha, hb]
  · rw [if_pos ha, if_neg hb] at hd
    exact absurd hd.symm (digitsRev_ne_zero_char hb)
  · rw [if_neg ha, if_pos hb] at hd
    exact absurd hd (digitsRev_ne_zero_char ha)
  · rw [if_neg ha, if_neg hb] at hd
    exact digitsRev_inj hd

lemma repr_ne_of_ne {a b : Nat} (h : a ≠ b) : Nat.repr a ≠ Nat.repr b :=
  fun hc => h (repr_inj hc)

/-- The dashboard state right after load with a given input, mode, and file:
transcript `[INITIAL_MESSAGE]`, not loading. -/
def initState (inp : String) (mode : GenerationMode) (fl : Option FileData) : DashState :=
  { messages := [INITIAL_MESSAGE 0]
    input := inp
    isLoading := false
    mode := mode
    file := fl }

/-- The dispatched capability call of `handleSubmit` rejects, at the exact
arguments the controller passes for the given mode. -/
def dispatchFaults (caps : Capabilities) (ctx : ProjectContext) (mode : GenerationMode)
    (inp : String) (fl : Option FileData) : Prop :=
  match mode with
  | .COPYWRITING => caps.generateStrategy inp (contextString ctx) (attachParts fl) = .error ()
  | .RESEARCH => caps.conductResearch inp = .error ()
  | .VISUAL => caps.generateProfessionalImage inp (fl.map FileData.data) = .error ()
  | .VIDEO => caps.generateCinematicVideo inp = .error ()

/-- The reference attachment used by the concrete evaluations. -/
def refFile : FileData := { name := "ref.png", data := "QUJD", mime := "image/png" }

lemma acceptedInput_some (inp : String) (f : FileData) :
    acceptedInput inp (some f) = true := by
  simp [acceptedInput]

lemma guard_false_of_accepted {s : DashState}
    (hacc : acceptedInput s.input s.file = true) (hbusy : s.isLoading = false) :
    ((s.input.trim == "" && s.file.isNone) || s.isLoading) = false := by
  cases hb : (s.input.trim == "" && s.file.isNone) with
  | false => rw [hbusy]; rfl
  | true =>
    unfold acceptedInput at hacc
    rw [hb] at hacc
    exact absurd hacc (by decide)

/-- C3: `handleSubmit` is a no-op — state unchanged, no transcript snapshot,
tick unchanged, and independent of the capability oracle and context — when
the trimmed input is empty and no file is pending, and likewise whenever
`isLoading` is already true. -/
theorem submit_rejected_is_noop (clock : Nat → Nat) (n : Nat) (caps : Capabilities)
    (ctx : ProjectContext) (s : DashState)
    (h : (s.input.trim = "" ∧ s.file = none) ∨ s.isLoading = true) :
    handleSubmit clock n caps ctx s = ⟨[], s, n⟩ ∧
    ∀ caps2 ctx2, handleSubmit clock n caps2 ctx2 s = ⟨[], s, n⟩ := by
  have hg : ((s.input.trim == "" && s.file.isNone) || s.isLoading) = true := by
    rcases h with ⟨h1, h2⟩ | h1
    · simp [h1, h2]
    · simp [h1]
  exact ⟨by simp [handleSubmit, hg], fun caps2 ctx2 => by simp [handleSubmit, hg]⟩

/-- Witness for C3: a busy controller with valid input leaves the state
untouched. -/
theorem submit_rejected_is_noop_witness :
    handleSubmit tickClock 1 capsReject ctx0
        { initState "hello" .VISUAL none with isLoading := true } =
      ⟨[], { initState "hello" .VISUAL none with isLoading := true }, 1⟩ :=
  (submit_rejected_is_noop tickClock 1 capsReject ctx0 _ (Or.inr rfl)).1

/-- C1: for every accepted submission whose dispatched capability call
rejects, the lifecycle appends the user message, in VIDEO mode the
placeholder, and then exactly one terminal assistant TEXT message carrying the
fixed error text; the exception never escapes (`handleSubmit` always returns a
state), and the busy flag is false afterwards for every capability outcome
whatsoever. -/
theorem submit_fault_caught (clock : Nat → Nat) (n : Nat) (caps : Capabilities)
    (ctx : ProjectContext) (s : DashState)
    (hacc : acceptedInput s.input s.file = true) (hbusy : s.isLoading = false)
    (hf : dispatchFaults caps ctx s.mode s.input s.file) :
    (handleSubmit clock n caps ctx s).state.messages =
      s.messages ++ [userMessage clock n s.input s.file] ++
        (if s.mode = .VIDEO then [tempVideoMessage clock n] else []) ++
        [errMessage clock (if s.mode = .VIDEO then n + 5 else n + 4)] ∧
    (errMessage clock (if s.mode = .VIDEO then n + 5 else n + 4)).role = .ASSISTANT ∧
    (errMessage clock (if s.mode = .VIDEO then n + 5 else n + 4)).type = .TEXT ∧
    (errMessage clock (if s.mode = .VIDEO then n + 5 else n + 4)).content = errorText ∧
    (handleSubmit clock n caps ctx s).state.isLoading = false ∧
    ∀ caps2, (handleSubmit clock n caps2 ctx s).state.isLoading = false := by
  have hg := guard_false_of_accepted hacc hbusy
  refine ⟨?_, rfl, rfl, rfl, ?_, ?_⟩
  · obtain ⟨ms, inp, busy, mode, fl⟩ := s
    simp only [handleSubmit, hg, Bool.false_eq_true, if_false]
    cases mode <;>
      simp only [dispatchFaults] at hf <;>
      simp [submitCore, hf, List.append_assoc]
  · simp [handleSubmit, hg]
  · intro caps2
    simp [handleSubmit, hg]

/-- Witness for C1: a rejected strategy call on valid input yields the welcome
message, the user turn, and the single fixed-text error record, with the busy
flag released. -/
theorem submit_fault_caught_witness :
    (handleSubmit tickClock 1 capsReject ctx0
        (initState "hello" .COPYWRITING (some refFile))).state.messages =
      [INITIAL_MESSAGE 0] ++ [userMessage tickClock 1 "hello" (some refFile)] ++ [] ++
        [errMessage tickClock 5] ∧
    (handleSubmit tickClock 1 capsReject ctx0
      (initState "hello" .COPYWRITING (some refFile))).state.isLoading = false := by
  have h := submit_fault_caught tickClock 1 capsReject ctx0
    (initState "hello" .COPYWRITING (some refFile)) (by simp [acceptedInput, initState]) rfl rfl
  exact ⟨by simpa using h.1, h.2.2.2.2.1⟩

lemma filter_temp_append {l : List Message} (hl : ∀ m ∈ l, m.id ≠ "temp-video")
    {tv : Message} (htv : tv.id = "temp-video") :
    (l ++ [tv]).filter (fun m => m.id != "temp-video") = l := by
  rw [List.filter_append]
  have h1 : l.filter (fun m => m.id != "temp-video") = l :=
    List.filter_eq_self.mpr (by intro a ha; simpa using hl a ha)
  have h2 : [tv].filter (fun m => m.id != "temp-video") = [] := by
    simp [List.filter, htv]
  rw [h1, h2, List.append_nil]

/-- The fixed TEXT record appended when the image capability returns no
media. -/
def imageFailMessage (clock : Nat → Nat) (n : Nat) : Message :=
  { blankResult clock n with content := "Failed to generate image. Please try again." }

/-- The fixed TEXT record appended when the video capability returns no
media. -/
def videoFailMessage (clock : Nat → Nat) (n : Nat) : Message :=
  { blankResult clock n with content := "Video generation failed or was cancelled." }

/-- C5: an absent media result is recoverable, not an error: in VISUAL mode a
`null` image yields exactly one terminal assistant TEXT message with the fixed
image-failure text (no IMAGE record appended), and in VIDEO mode a `null`
video yields exactly one terminal assistant TEXT message with the fixed
video-failure text (no VIDEO record appended); neither path is the exception
path. -/
theorem null_media_recoverable (clock : Nat → Nat) (n : Nat) (caps : Capabilities)
    (ctx : ProjectContext) (s : DashState)
    (hacc : acceptedInput s.input s.file = true) (hbusy : s.isLoading = false)
    (hclean : ∀ m ∈ s.messages, m.id ≠ "temp-video") :
    (s.mode = .VISUAL →
      caps.generateProfessionalImage s.input (s.file.map FileData.data) = .ok none →
      (handleSubmit clock n caps ctx s).state.messages =
        s.messages ++ [userMessage clock n s.input s.file] ++ [imageFailMessage clock n] ∧
      (imageFailMessage clock n).type = .TEXT ∧
      (imageFailMessage clock n).role = .ASSISTANT ∧
      (imageFailMessage clock n).content = "Failed to generate image. Please try again.") ∧
    (s.mode = .VIDEO →
      caps.generateCinematicVideo s.input = .ok none →
      (handleSubmit clock n caps ctx s).state.messages =
        s.messages ++ [userMessage clock n s.input s.file] ++ [videoFailMessage clock n] ∧
      (videoFailMessage clock n).type = .TEXT ∧
      (videoFailMessage clock n).role = .ASSISTANT ∧
      (videoFailMessage clock n).content = "Video generation failed or was cancelled.") := by
  have hg := guard_false_of_accepted hacc hbusy
  obtain ⟨ms, inp, busy, mode, fl⟩ := s
  constructor
  · intro hm hcap
    subst hm
    simp only at hcap hclean hg
    refine ⟨?_, rfl, rfl, rfl⟩
    simp only [handleSubmit, hg, Bool.false_eq_true, if_false]
    simp [submitCore, hcap, imageFailMessage, List.append_assoc]
  · intro hm hcap
    subst hm
    simp only at hcap hclean hg
    refine ⟨?_, rfl, rfl, rfl⟩
    simp only [handleSubmit, hg, Bool.false_eq_true, if_false]
    have hfil : ((ms ++ [userMessage clock n inp fl]) ++ [tempVideoMessage clock n]).filter
        (fun m => m.id != "temp-video") = ms ++ [userMessage clock n inp fl] := by
      refine filter_temp_append ?_ rfl
      intro m hm2
      rcases List.mem_append.mp hm2 with h1 | h1
      · exact hclean m h1
      · rcases List.mem_singleton.mp h1 with rfl
        exact repr_ne_tempvideo (clock n)
    simp only [submitCore, hcap]
    rw [hfil]
    simp [videoFailMessage, List.append_assoc]

/-- Witness for C5: with the image capability returning no media on
"neon skyline", the transcript ends with the fixed image-failure TEXT record. -/
theorem null_media_recoverable_witness :
    (handleSubmit tickClock 1 capsEmptyMedia ctx0
        (initState "neon skyline" .VISUAL (some refFile))).state.messages =
      [INITIAL_MESSAGE 0] ++ [userMessage tickClock 1 "neon skyline" (some refFile)] ++
        [imageFailMessage tickClock 1] ∧
    (imageFailMessage tickClock 1).type = .TEXT := by
  have h := (null_media_recoverable tickClock 1 capsEmptyMedia ctx0
    (initState "neon skyline" .VISUAL (some refFile))
    (by simp [acceptedInput, initState]) rfl (by decide)).1 rfl rfl
  exact ⟨h.1, h.2.1⟩

/-- The concrete VIDEO-mode fault run used to exhibit the orphaned
placeholder: valid input, a pending attachment, and a rejecting video
capability. -/
def videoFaultRun : HandleOut :=
  handleSubmit tickClock 1 capsReject ctx0 (initState "drone shot of ocean" .VIDEO (some refFile))

lemma videoFaultRun_messages :
    videoFaultRun.state.messages =
      [INITIAL_MESSAGE 0, userMessage tickClock 1 "drone shot of ocean" (some refFile),
       tempVideoMessage tickClock 1, errMessage tickClock 6] := by
  have hg : (((initState "drone shot of ocean" .VIDEO (some refFile)).input.trim == "" &&
      (initState "drone shot of ocean" .VIDEO (some refFile)).file.isNone) ||
      (initState "drone shot of ocean" .VIDEO (some refFile)).isLoading) = false := by
    simp [initState]
  unfold videoFaultRun
  simp only [handleSubmit, hg, Bool.false_eq_true, if_false]
  rfl

/-- C4 evaluation: in the VIDEO fault run the placeholder with id
`temp-video` and `metadata.thinking = true` is still in the transcript after
settlement, next to the fault message — the `catch` block never removes it. -/
theorem video_fault_orphans_placeholder :
    videoFaultRun.state.messages =
      [INITIAL_MESSAGE 0, userMessage tickClock 1 "drone shot of ocean" (some refFile),
       tempVideoMessage tickClock 1, errMessage tickClock 6] ∧
    (tempVideoMessage tickClock 1).id = "temp-video" ∧
    (tempVideoMessage tickClock 1).metadata = some { thinking := some true } ∧
    tempVideoMessage tickClock 1 ∈ videoFaultRun.state.messages :=
  ⟨videoFaultRun_messages, rfl, rfl, by rw [videoFaultRun_messages]; simp⟩

/-- The concrete VIDEO-mode fault run used to exhibit a placeholder remaining
at lifecycle end (C2): a second prompt against the rejecting video oracle. -/
def videoFaultRun2 : HandleOut :=
  handleSubmit tickClock 1 capsReject ctx0 (initState "city flyover" .VIDEO (some refFile))

/-- C2 evaluation: in a VIDEO-mode fault run exactly one user-turn record and
one terminal assistant record are appended, but a placeholder message remains
in the transcript at the end of the lifecycle. -/
theorem video_fault_leaves_placeholder_in_transcript :
    (videoFaultRun2.state.messages.filter (fun m => m.id == "temp-video")).length = 1 ∧
    (videoFaultRun2.state.messages.filter (fun m => m.role == .USER)).length = 1 := by
  have hg : (((initState "city flyover" .VIDEO (some refFile)).input.trim == "" &&
      (initState "city flyover" .VIDEO (some refFile)).file.isNone) ||
      (initState "city flyover" .VIDEO (some refFile)).isLoading) = false := by
    simp [initState]
  unfold videoFaultRun2
  simp only [handleSubmit, hg, Bool.false_eq_true, if_false]
  decide

/-- The constant clock (all `Date.now()` reads in the same millisecond). -/
def zeroClock : Nat → Nat := fun _ => 0

/-- C6 counterexample: with every clock read in the same millisecond and a
rejecting strategy call, the user record (transcript position 1) and the
fault record (transcript position 2) both get id `"0"` — a reachable
transcript whose ids are not pairwise distinct. -/
theorem duplicate_ids_in_one_submit :
    ((handleSubmit zeroClock 1 capsReject ctx0
        (initState "x" .COPYWRITING (some refFile))).state.messages.map
          (fun m => m.id)).get? 1 = some "0" ∧
    ((handleSubmit zeroClock 1 capsReject ctx0
        (initState "x" .COPYWRITING (some refFile))).state.messages.map
          (fun m => m.id)).get? 2 = some "0" := by
  have hg : (((initState "x" .COPYWRITING (some refFile)).input.trim == "" &&
      (initState "x" .COPYWRITING (some refFile)).file.isNone) ||
      (initState "x" .COPYWRITING (some refFile)).isLoading) = false := by
    simp [initState]
  simp only [handleSubmit, hg, Bool.false_eq_true, if_false]
  exact ⟨by decide, by decide⟩

namespace GeminiService

/-- A video environment whose credential-selection hook rejects. -/
def keyRejectEnv : VideoEnv :=
  { keySel := some { hasSelectedApiKey := .ok false, openSelectKey := .error () }
    startOp := .ok { done := false, videoUri := none }
    polls := []
    fetchResult := .error () }

/-- A video environment whose `generateVideos` start call rejects inside the
`try` block. -/
def startRejectEnv : VideoEnv :=
  { keySel := none
    startOp := .error ()
    polls := []
    fetchResult := .ok "blob:url" }

/-- C9 counterexample: when `openSelectKey()` rejects, the whole
`generateCinematicVideo` call settles as a rejection, not as `null` — the
pre-`try` credential step is outside the catch-all. -/
theorem video_call_can_reject :
    generateCinematicVideo keyRejectEnv = some (Except.error ()) := rfl

/-- Whether a settlement of the video call is a success (rather than a
rejection). -/
def settledOk (r : Except Unit (Option String)) : Bool :=
  match r with
  | .ok _ => true
  | .error _ => false

/-- C9 amended: every error arising inside the `try` block (operation start,
poll loop, final fetch) is funneled into a `null` return, so whenever
`ensureApiKey` succeeds and the call settles, it settles successfully with a
video reference or `null`, never as a rejection. -/
theorem video_errors_funnel_to_null (env : VideoEnv)
    (hkey : ensureApiKey env.keySel = .ok ())
    (r : Except Unit (Option String))
    (hr : generateCinematicVideo env = some r) :
    settledOk r = true := by
  suffices h : ∃ v : Option String, r = .ok v by
    obtain ⟨v, rfl⟩ := h
    rfl
  unfold generateCinematicVideo at hr
  rw [hkey] at hr
  dsimp only at hr
  cases hs : env.startOp with
  | error e =>
    rw [hs] at hr
    dsimp only at hr
    exact ⟨none, (Option.some.inj hr).symm⟩
  | ok op =>
    rw [hs] at hr
    dsimp only at hr
    cases hp : pollVideo env.polls op with
    | none => rw [hp] at hr; cases hr
    | some pr =>
      rw [hp] at hr
      cases pr with
      | error e =>
        dsimp only at hr
        exact ⟨none, (Option.some.inj hr).symm⟩
      | ok opDone =>
        dsimp only at hr
        cases hu : opDone.videoUri with
        | none =>
          rw [hu] at hr
          dsimp only at hr
          exact ⟨none, (Option.some.inj hr).symm⟩
        | some uri =>
          rw [hu] at hr
          dsimp only at hr
          cases hf : env.fetchResult with
          | error e =>
            rw [hf] at hr
            dsimp only at hr
            exact ⟨none, (Option.some.inj hr).symm⟩
          | ok url =>
            rw [hf] at hr
            dsimp only at hr
            exact ⟨some url, (Option.some.inj hr).symm⟩

/-- Witness for the amended C9: a rejecting start call inside the `try` is
observed by the controller as a successful `null` settlement. -/
theorem video_errors_funnel_to_null_witness :
    settledOk (Except.ok none) = true :=
  video_errors_funnel_to_null startRejectEnv rfl (.ok none) rfl

end GeminiService

/-- The metadata/type invariant of one transcript entry: at most one of
`imageUrl` / `videoUrl` / `sources` is populated, exactly when the entry type
matches, and TEXT entries carry none of the three. -/
def metaOK (m : Message) : Bool :=
  match m.type, m.metadata with
  | .TEXT, none => true
  | .TEXT, some md => md.imageUrl.isNone && md.videoUrl.isNone && md.sources.isNone
  | .IMAGE, some md => md.imageUrl.isSome && md.videoUrl.isNone && md.sources.isNone
  | .VIDEO, some md => md.videoUrl.isSome && md.imageUrl.isNone && md.sources.isNone
  | .RESEARCH, some md => md.sources.isSome && md.imageUrl.isNone && md.videoUrl.isNone
  | _, none => false

lemma filter_user_temp (clock : Nat → Nat) (n : Nat) (inp : String) (fl : Option FileData)
    (ms : List Message) :
    ((ms ++ [userMessage clock n inp fl]) ++ [tempVideoMessage clock n]).filter
      (fun m => m.id != "temp-video") =
    ms.filter (fun m => m.id != "temp-video") ++ [userMessage clock n inp fl] := by
  have hu : ((userMessage clock n inp fl).id != "temp-video") = true := by
    simp only [userMessage, bne_iff_ne, ne_eq]
    exact repr_ne_tempvideo (clock n)
  have htv : ((tempVideoMessage clock n).id != "temp-video") = false := by
    simp [tempVideoMessage]
  simp [List.filter_append, List.filter_cons, hu, htv]

/-- Exhaustive description of one accepted lifecycle: a successful non-VIDEO
dispatch, a rejected non-VIDEO dispatch, a settled VIDEO dispatch, or a
rejected VIDEO dispatch, with the snapshots, final transcript and tick use of
each. -/
lemma submitCore_cases (clock : Nat → Nat) (n : Nat) (caps : Capabilities)
    (ctx : ProjectContext) (mode : GenerationMode) (inp : String) (fl : Option FileData)
    (ms : List Message) :
    (∃ rm : Message,
      submitCore clock n caps ctx mode inp fl ms =
        ⟨[ms ++ [userMessage clock n inp fl], ms ++ [userMessage clock n inp fl, rm]],
         ms ++ [userMessage clock n inp fl, rm], n + 4⟩ ∧
      rm.id = Nat.repr (clock (n + 2) + 1) ∧ rm.role = .ASSISTANT ∧
      rm.timestamp = clock (n + 3) ∧ metaOK rm = true) ∨
    (submitCore clock n caps ctx mode inp fl ms =
      ⟨[ms ++ [userMessage clock n inp fl],
        ms ++ [userMessage clock n inp fl, errMessage clock (n + 4)]],
       ms ++ [userMessage clock n inp fl, errMessage clock (n + 4)], n + 6⟩) ∨
    (∃ rm : Message, mode = .VIDEO ∧
      submitCore clock n caps ctx mode inp fl ms =
        ⟨[ms ++ [userMessage clock n inp fl],
          ms ++ [userMessage clock n inp fl, tempVideoMessage clock n],
          ms.filter (fun m => m.id != "temp-video") ++ [userMessage clock n inp fl],
          ms.filter (fun m => m.id != "temp-video") ++ [userMessage clock n inp fl, rm]],
         ms.filter (fun m => m.id != "temp-video") ++ [userMessage clock n inp fl, rm],
         n + 5⟩ ∧
      rm.id = Nat.repr (clock (n + 2) + 1) ∧ rm.role = .ASSISTANT ∧
      rm.timestamp = clock (n + 3) ∧ metaOK rm = true) ∨
    (mode = .VIDEO ∧ caps.generateCinematicVideo inp = .error () ∧
      submitCore clock n caps ctx mode inp fl ms =
        ⟨[ms ++ [userMessage clock n inp fl],
          ms ++ [userMessage clock n inp fl, tempVideoMessage clock n],
          ms ++ [userMessage clock n inp fl, tempVideoMessage clock n, errMessage clock (n + 5)]],
         ms ++ [userMessage clock n inp fl, tempVideoMessage clock n, errMessage clock (n + 5)],
         n + 7⟩) := by
  cases mode with
  | COPYWRITING =>
    cases hc : caps.generateStrategy inp (contextString ctx) (attachParts fl) with
    | ok res =>
      exact Or.inl ⟨{ blankResult clock n with content := res.text },
        by simp [submitCore, hc], rfl, rfl, rfl, rfl⟩
    | error e =>
      exact Or.inr (Or.inl (by simp [submitCore, hc]))
  | RESEARCH =>
    cases hc : caps.conductResearch inp with
    | ok res =>
      exact Or.inl ⟨{ blankResult clock n with
          content := res.text
          type := .RESEARCH
          metadata := some { sources := some res.sources } },
        by simp [submitCore, hc], rfl, rfl, rfl, rfl⟩
    | error e =>
      exact Or.inr (Or.inl (by simp [submitCore, hc]))
  | VISUAL =>
    cases hc : caps.generateProfessionalImage inp (fl.map FileData.data) with
    | ok v =>
      cases v with
      | some img =>
        exact Or.inl ⟨{ blankResult clock n with
            type := .IMAGE
            content := "Generated concept based on: \"" ++ inp ++ "\""
            metadata := some { imageUrl := some img } },
          by simp [submitCore, hc], rfl, rfl, rfl, rfl⟩
      | none =>
        exact Or.inl ⟨imageFailMessage clock n,
          by simp [submitCore, hc, imageFailMessage], rfl, rfl, rfl, rfl⟩
    | error e =>
      exact Or.inr (Or.inl (by simp [submitCore, hc]))
  | VIDEO =>
    cases hc : caps.generateCinematicVideo inp with
    | ok v =>
      cases v with
      | some url =>
        refine Or.inr (Or.inr (Or.inl ⟨{ blankResult clock n with
            type := .VIDEO
            content := "Render complete for scene: \"" ++ inp ++ "\""
            metadata := some { videoUrl := some url } }, rfl, ?_, rfl, rfl, rfl, rfl⟩))
        simp only [submitCore, hc]
        rw [filter_user_temp]
        simp
      | none =>
        refine Or.inr (Or.inr (Or.inl ⟨videoFailMessage clock n, rfl, ?_, rfl, rfl, rfl, rfl⟩))
        simp only [submitCore, hc]
        rw [filter_user_temp]
        simp [videoFailMessage]
    | error e =>
      cases e
      exact Or.inr (Or.inr (Or.inr ⟨rfl, rfl, by simp [submitCore, hc]⟩))

lemma reachF_headWelcome {clock : Nat → Nat} {P : SubmitParams → Prop} {n : Nat}
    {ms : List Message} (h : ReachF clock P n ms) :
    ∃ t, ms = INITIAL_MESSAGE (clock 0) :: t := by
  induction h with
  | init => exact ⟨[], rfl⟩
  | @step n0 ms0 p hR hP hacc ih =>
    obtain ⟨t, ht⟩ := ih
    subst ht
    rcases submitCore_cases clock n0 p.caps p.ctx p.mode p.inp p.fl
        (INITIAL_MESSAGE (clock 0) :: t) with
      ⟨rm, heq, _⟩ | heq | ⟨rm, _, heq, _⟩ | ⟨_, _, heq⟩
    · exact ⟨t ++ [userMessage clock n0 p.inp p.fl, rm], by rw [heq]; rfl⟩
    · exact ⟨t ++ [userMessage clock n0 p.inp p.fl, errMessage clock (n0 + 4)], by rw [heq]; rfl⟩
    · exact ⟨t.filter (fun m => m.id != "temp-video") ++
        [userMessage clock n0 p.inp p.fl, rm], by rw [heq]; rfl⟩
    · exact ⟨t ++ [userMessage clock n0 p.inp p.fl, tempVideoMessage clock n0,
        errMessage clock (n0 + 5)], by rw [heq]; rfl⟩

/-- C10: the transcript is never empty: in every reachable state (quiescent
or mid-lifecycle) the first entry is the welcome message — appends go to the
tail and the only removal filters out the reserved id `temp-video`, never
`welcome` — and the initial transcript consisting of exactly the welcome
message is itself reachable. -/
theorem welcome_message_heads_transcript (clock : Nat → Nat) (ms : List Message)
    (h : ReachA clock AnyParams ms) :
    ms ≠ [] ∧ ms.head? = some (INITIAL_MESSAGE (clock 0)) ∧
    (INITIAL_MESSAGE (clock 0)).id = "welcome" ∧
    (INITIAL_MESSAGE (clock 0)).role = .ASSISTANT ∧
    (INITIAL_MESSAGE (clock 0)).type = .TEXT ∧
    ReachA clock AnyParams [INITIAL_MESSAGE (clock 0)] := by
  have hhead : ∃ t, ms = INITIAL_MESSAGE (clock 0) :: t := by
    rcases h with ⟨n, hF⟩ | ⟨n, ms0, p, hF, hP, hacc, hsnap⟩
    · exact reachF_headWelcome hF
    · obtain ⟨t, ht⟩ := reachF_headWelcome hF
      subst ht
      rcases submitCore_cases clock n p.caps p.ctx p.mode p.inp p.fl
          (INITIAL_MESSAGE (clock 0) :: t) with
        ⟨rm, heq, _⟩ | heq | ⟨rm, _, heq, _⟩ | ⟨_, _, heq⟩ <;>
        rw [heq] at hsnap <;>
        simp only [List.mem_cons, List.not_mem_nil, or_false] at hsnap
      · rcases hsnap with rfl | rfl
        · exact ⟨_, rfl⟩
        · exact ⟨_, rfl⟩
      · rcases hsnap with rfl | rfl
        · exact ⟨_, rfl⟩
        · exact ⟨_, rfl⟩
      · rcases hsnap with rfl | rfl | rfl | rfl
        · exact ⟨_, rfl⟩
        · exact ⟨_, rfl⟩
        · exact ⟨_, rfl⟩
        · exact ⟨_, rfl⟩
      · rcases hsnap with rfl | rfl | rfl
        · exact ⟨_, rfl⟩
        · exact ⟨_, rfl⟩
        · exact ⟨_, rfl⟩
  obtain ⟨t, rfl⟩ := hhead
  exact ⟨List.cons_ne_nil _ _, rfl, rfl, rfl, rfl, Or.inl ⟨1, .init⟩⟩

/-- Witness for C10: the initial transcript of the loaded dashboard. -/
theorem welcome_message_heads_transcript_witness :
    [INITIAL_MESSAGE 0] ≠ ([] : List Message) ∧
    ([INITIAL_MESSAGE 0] : List Message).head? = some (INITIAL_MESSAGE 0) := by
  have h := welcome_message_heads_transcript tickClock [INITIAL_MESSAGE 0]
    (Or.inl ⟨1, .init⟩)
  exact ⟨h.1, h.2.1⟩

lemma metaOK_user (clock : Nat → Nat) (n : Nat) (inp : String) (fl : Option FileData) :
    metaOK (userMessage clock n inp fl) = true := rfl

lemma metaOK_err (clock : Nat → Nat) (k : Nat) : metaOK (errMessage clock k) = true := rfl

lemma metaOK_temp (clock : Nat → Nat) (n : Nat) :
    metaOK (tempVideoMessage clock n) = true := rfl

lemma reachF_metaOK {clock : Nat → Nat} {P : SubmitParams → Prop} {n : Nat}
    {ms : List Message} (h : ReachF clock P n ms) :
    ∀ m ∈ ms, metaOK m = true := by
  induction h with
  | init =>
    intro m hm
    rcases List.mem_singleton.mp hm with rfl
    rfl
  | @step n0 ms0 p hR hP hacc ih =>
    rcases submitCore_cases clock n0 p.caps p.ctx p.mode p.inp p.fl ms0 with
      ⟨rm, heq, _, _, _, hmeta⟩ | heq | ⟨rm, _, heq, _, _, _, hmeta⟩ | ⟨_, _, heq⟩ <;>
      rw [heq] <;> intro m hm <;>
      simp only [List.mem_append, List.mem_cons, List.not_mem_nil, or_false] at hm
    · rcases hm with hm | rfl | rfl
      · exact ih m hm
      · exact metaOK_user clock n0 p.inp p.fl
      · exact hmeta
    · rcases hm with hm | rfl | rfl
      · exact ih m hm
      · exact metaOK_user clock n0 p.inp p.fl
      · exact metaOK_err clock (n0 + 4)
    · rcases hm with hm | rfl | rfl
      · exact ih m (List.mem_of_mem_filter hm)
      · exact metaOK_user clock n0 p.inp p.fl
      · exact hmeta
    · rcases hm with hm | rfl | rfl | rfl
      · exact ih m hm
      · exact metaOK_user clock n0 p.inp p.fl
      · exact metaOK_temp clock n0
      · exact metaOK_err clock (n0 + 5)

/-- C8: every message in every reachable transcript state satisfies the
metadata/type invariant `metaOK`: at most one of `imageUrl` / `videoUrl` /
`sources` is populated, it is populated exactly when the message type matches
(IMAGE with `imageUrl`, VIDEO with `videoUrl`, RESEARCH with `sources`), and
TEXT messages carry none of the three. -/
theorem messages_satisfy_metadata_invariant (clock : Nat → Nat) (ms : List Message)
    (h : ReachA clock AnyParams ms) :
    ∀ m ∈ ms, metaOK m = true := by
  rcases h with ⟨n, hF⟩ | ⟨n, ms0, p, hF, hP, hacc, hsnap⟩
  · exact reachF_metaOK hF
  · have ih := reachF_metaOK hF
    rcases submitCore_cases clock n p.caps p.ctx p.mode p.inp p.fl ms0 with
      ⟨rm, heq, _, _, _, hmeta⟩ | heq | ⟨rm, _, heq, _, _, _, hmeta⟩ | ⟨_, _, heq⟩ <;>
      rw [heq] at hsnap <;>
      simp only [List.mem_cons, List.not_mem_nil, or_false] at hsnap <;>
      intro m hm
    · rcases hsnap with rfl | rfl <;>
        simp only [List.mem_append, List.mem_cons, List.not_mem_nil, or_false] at hm
      · rcases hm with hm | rfl
        · exact ih m hm
        · exact metaOK_user clock n p.inp p.fl
      · rcases hm with hm | rfl | rfl
        · exact ih m hm
        · exact metaOK_user clock n p.inp p.fl
        · exact hmeta
    · rcases hsnap with rfl | rfl <;>
        simp only [List.mem_append, List.mem_cons, List.not_mem_nil, or_false] at hm
      · rcases hm with hm | rfl
        · exact ih m hm
        · exact metaOK_user clock n p.inp p.fl
      · rcases hm with hm | rfl | rfl
        · exact ih m hm
        · exact metaOK_user clock n p.inp p.fl
        · exact metaOK_err clock (n + 4)
    · rcases hsnap with rfl | rfl | rfl | rfl <;>
        simp only [List.mem_append, List.mem_cons, List.not_mem_nil, or_false] at hm
      · rcases hm with hm | rfl
        · exact ih m hm
        · exact metaOK_user clock n p.inp p.fl
      · rcases hm with hm | rfl | rfl
        · exact ih m hm
        · exact metaOK_user clock n p.inp p.fl
        · exact metaOK_temp clock n
      · rcases hm with hm | rfl
        · exact ih m (List.mem_of_mem_filter hm)
        · exact metaOK_user clock n p.inp p.fl
      · rcases hm with hm | rfl | rfl
        · exact ih m (List.mem_of_mem_filter hm)
        · exact metaOK_user clock n p.inp p.fl
        · exact hmeta
    · rcases hsnap with rfl | rfl | rfl <;>
        simp only [List.mem_append, List.mem_cons, List.not_mem_nil, or_false] at hm
      · rcases hm with hm | rfl
        · exact ih m hm
        · exact metaOK_user clock n p.inp p.fl
      · rcases hm with hm | rfl | rfl
        · exact ih m hm
        · exact metaOK_user clock n p.inp p.fl
        · exact metaOK_temp clock n
      · rcases hm with hm | rfl | rfl | rfl
        · exact ih m hm
        · exact metaOK_user clock n p.inp p.fl
        · exact metaOK_temp clock n
        · exact metaOK_err clock (n + 5)

/-- Witness for C8: the invariant evaluated on the transcript after one
accepted RESEARCH submission. -/
theorem messages_satisfy_metadata_invariant_witness :
    ((submitCore tickClock 1 capsEmptyMedia ctx0 .RESEARCH "trends" (some refFile)
      [INITIAL_MESSAGE 0]).msgs.all (fun m => metaOK m)) = true :=
  List.all_eq_true.mpr
    (fun m hm => messages_satisfy_metadata_invariant tickClock _
      (Or.inl ⟨_, .step ⟨capsEmptyMedia, ctx0, .RESEARCH, "trends", some refFile⟩ .init
        trivial (acceptedInput_some "trends" refFile)⟩) m hm)

lemma tsPairwise_append_one {ms : List Message} {a : Message} {c : Nat}
    (hpw : ms.Pairwise (fun x y => x.timestamp ≤ y.timestamp))
    (hbd : ∀ m ∈ ms, m.timestamp ≤ c) (ha : c ≤ a.timestamp) :
    (ms ++ [a]).Pairwise (fun x y => x.timestamp ≤ y.timestamp) := by
  rw [List.pairwise_append]
  refine ⟨hpw, List.pairwise_singleton _ _, ?_⟩
  intro m hm b hb
  rcases List.mem_singleton.mp hb with rfl
  exact le_trans (hbd m hm) ha

lemma tsPairwise_append_two {ms : List Message} {a b : Message} {c : Nat}
    (hpw : ms.Pairwise (fun x y => x.timestamp ≤ y.timestamp))
    (hbd : ∀ m ∈ ms, m.timestamp ≤ c)
    (ha : c ≤ a.timestamp) (hab : a.timestamp ≤ b.timestamp) :
    (ms ++ [a, b]).Pairwise (fun x y => x.timestamp ≤ y.timestamp) := by
  rw [List.pairwise_append]
  refine ⟨hpw, ?_, ?_⟩
  · refine List.pairwise_cons.mpr ⟨?_, List.pairwise_singleton _ _⟩
    intro b2 hb2
    rcases List.mem_singleton.mp hb2 with rfl
    exact hab
  · intro m hm b2 hb2
    rcases List.mem_cons.mp hb2 with rfl | hb3
    · exact le_trans (hbd m hm) ha
    · rcases List.mem_singleton.mp hb3 with rfl
      exact le_trans (hbd m hm) (le_trans ha hab)

lemma tsPairwise_append_three {ms : List Message} {a b c2 : Message} {c : Nat}
    (hpw : ms.Pairwise (fun x y => x.timestamp ≤ y.timestamp))
    (hbd : ∀ m ∈ ms, m.timestamp ≤ c)
    (ha : c ≤ a.timestamp) (hab : a.timestamp ≤ b.timestamp)
    (hbc : b.timestamp ≤ c2.timestamp) :
    (ms ++ [a, b, c2]).Pairwise (fun x y => x.timestamp ≤ y.timestamp) := by
  rw [List.pairwise_append]
  refine ⟨hpw, ?_, ?_⟩
  · refine List.pairwise_cons.mpr ⟨?_, ?_⟩
    · intro b2 hb2
      rcases List.mem_cons.mp hb2 with rfl | hb3
      · exact hab
      · rcases List.mem_singleton.mp hb3 with rfl
        exact le_trans hab hbc
    · refine List.pairwise_cons.mpr ⟨?_, List.pairwise_singleton _ _⟩
      intro c3 hc3
      rcases List.mem_singleton.mp hc3 with rfl
      exact hbc
  · intro m hm b2 hb2
    have hmc := hbd m hm
    rcases List.mem_cons.mp hb2 with rfl | hb3
    · exact le_trans hmc ha
    · rcases List.mem_cons.mp hb3 with rfl | hb4
      · exact le_trans hmc (le_trans ha hab)
      · rcases List.mem_singleton.mp hb4 with rfl
        exact le_trans hmc (le_trans ha (le_trans hab hbc))

lemma filter_bound {ms : List Message} {c : Nat} (hbd : ∀ m ∈ ms, m.timestamp ≤ c) :
    ∀ m ∈ ms.filter (fun m => m.id != "temp-video"), m.timestamp ≤ c :=
  fun m hm => hbd m (List.mem_of_mem_filter hm)

lemma reachF_ts {clock : Nat → Nat} {P : SubmitParams → Prop} {n : Nat}
    {ms : List Message} (hmono : Monotone clock) (h : ReachF clock P n ms) :
    ms.Pairwise (fun x y => x.timestamp ≤ y.timestamp) ∧
      ∀ m ∈ ms, m.timestamp ≤ clock n := by
  induction h with
  | init =>
    refine ⟨List.pairwise_singleton _ _, ?_⟩
    intro m hm
    rcases List.mem_singleton.mp hm with rfl
    exact hmono (by omega)
  | @step n0 ms0 p hR hP hacc ih =>
    obtain ⟨hpw, hbd⟩ := ih
    rcases submitCore_cases clock n0 p.caps p.ctx p.mode p.inp p.fl ms0 with
      ⟨rm, heq, _, _, hts, _⟩ | heq | ⟨rm, _, heq, _, _, hts, _⟩ | ⟨_, _, heq⟩ <;>
      rw [heq] <;> dsimp only
    · constructor
      · refine tsPairwise_append_two hpw hbd (hmono (by omega)) ?_
        rw [hts]
        exact hmono (by omega)
      · intro m hm
        simp only [List.mem_append, List.mem_cons, List.not_mem_nil, or_false] at hm
        rcases hm with hm | rfl | rfl
        · exact le_trans (hbd m hm) (hmono (by omega))
        · exact hmono (by omega)
        · rw [hts]; exact hmono (by omega)
    · constructor
      · exact tsPairwise_append_two hpw hbd (hmono (by omega)) (hmono (by omega))
      · intro m hm
        simp only [List.mem_append, List.mem_cons, List.not_mem_nil, or_false] at hm
        rcases hm with hm | rfl | rfl
        · exact le_trans (hbd m hm) (hmono (by omega))
        · exact hmono (by omega)
        · exact hmono (by omega)
    · constructor
      · refine tsPairwise_append_two (List.Pairwise.sublist (List.filter_sublist _) hpw)
          (filter_bound hbd) (hmono (by omega)) ?_
        rw [hts]
        exact hmono (by omega)
      · intro m hm
        simp only [List.mem_append, List.mem_cons, List.not_mem_nil, or_false] at hm
        rcases hm with hm | rfl | rfl
        · exact le_trans (filter_bound hbd m hm) (hmono (by omega))
        · exact hmono (by omega)
        · rw [hts]; exact hmono (by omega)
    · constructor
      · exact tsPairwise_append_three hpw hbd (hmono (by omega)) (hmono (by omega))
          (hmono (by omega))
      · intro m hm
        simp only [List.mem_append, List.mem_cons, List.not_mem_nil, or_false] at hm
        rcases hm with hm | rfl | rfl | rfl
        · exact le_trans (hbd m hm) (hmono (by omega))
        · exact hmono (by omega)
        · exact hmono (by omega)
        · exact hmono (by omega)

/-- C7: in every reachable transcript state the `timestamp` fields are
monotone non-decreasing in transcript order, for every monotone clock — in
particular also in the VIDEO lifecycle, where the terminal record's timestamp
is captured (tick `n + 3`) before the later-timestamped placeholder
(tick `n + 4`) is appended and removed. -/
theorem timestamps_monotone (clock : Nat → Nat) (hmono : Monotone clock)
    (ms : List Message) (h : ReachA clock AnyParams ms) :
    ms.Pairwise (fun x y => x.timestamp ≤ y.timestamp) := by
  rcases h with ⟨n, hF⟩ | ⟨n, ms0, p, hF, hP, hacc, hsnap⟩
  · exact (reachF_ts hmono hF).1
  · obtain ⟨hpw, hbd⟩ := reachF_ts hmono hF
    rcases submitCore_cases clock n p.caps p.ctx p.mode p.inp p.fl ms0 with
      ⟨rm, heq, _, _, hts, _⟩ | heq | ⟨rm, _, heq, _, _, hts, _⟩ | ⟨_, _, heq⟩ <;>
      rw [heq] at hsnap <;>
      simp only [List.mem_cons, List.not_mem_nil, or_false] at hsnap
    · rcases hsnap with rfl | rfl
      · exact tsPairwise_append_one hpw hbd (hmono (by omega))
      · refine tsPairwise_append_two hpw hbd (hmono (by omega)) ?_
        rw [hts]; exact hmono (by omega)
    · rcases hsnap with rfl | rfl
      · exact tsPairwise_append_one hpw hbd (hmono (by omega))
      · exact tsPairwise_append_two hpw hbd (hmono (by omega)) (hmono (by omega))
    · rcases hsnap with rfl | rfl | rfl | rfl
      · exact tsPairwise_append_one hpw hbd (hmono (by omega))
      · exact tsPairwise_append_two hpw hbd (hmono (by omega)) (hmono (by omega))
      · exact tsPairwise_append_one (List.Pairwise.sublist (List.filter_sublist _) hpw)
          (filter_bound hbd) (hmono (by omega))
      · refine tsPairwise_append_two (List.Pairwise.sublist (List.filter_sublist _) hpw)
          (filter_bound hbd) (hmono (by omega)) ?_
        rw [hts]; exact hmono (by omega)
    · rcases hsnap with rfl | rfl | rfl
      · exact tsPairwise_append_one hpw hbd (hmono (by omega))
      · exact tsPairwise_append_two hpw hbd (hmono (by omega)) (hmono (by omega))
      · exact tsPairwise_append_three hpw hbd (hmono (by omega)) (hmono (by omega))
          (hmono (by omega))

/-- Witness for C7: the transcript after one accepted VIDEO submission whose
capability settles with no media, under the identity clock. -/
theorem timestamps_monotone_witness :
    ((submitCore tickClock 1 capsEmptyMedia ctx0 .VIDEO "ocean" (some refFile)
      [INITIAL_MESSAGE 0]).msgs).Pairwise (fun x y => x.timestamp ≤ y.timestamp) :=
  timestamps_monotone tickClock (fun _ _ hle => hle) _
    (Or.inl ⟨_, .step ⟨capsEmptyMedia, ctx0, .VIDEO, "ocean", some refFile⟩ .init
      trivial (acceptedInput_some "ocean" refFile)⟩)

/-- A clock whose successive reads are at least 2 apart (so that the
`Date.now() + 1` id of a result record cannot collide with any other read). -/
def GapClock (clock : Nat → Nat) : Prop := ∀ k, clock k + 2 ≤ clock (k + 1)

/-- Submissions whose VIDEO dispatch settles rather than rejects; a rejecting
VIDEO dispatch orphans the `temp-video` placeholder, after which a later VIDEO
submission duplicates that id. -/
def VideoSafe : SubmitParams → Prop := fun p =>
  p.mode = .VIDEO → ∃ v, p.caps.generateCinematicVideo p.inp = .ok v

/-- Shape of every id in a reachable quiescent transcript: the welcome id, or
the decimal form of a clock read below the tick bound, plain or incremented. -/
def GoodId (clock : Nat → Nat) (n : Nat) (s : String) : Prop :=
  s = "welcome" ∨ ∃ k, k < n ∧ (s = Nat.repr (clock k) ∨ s = Nat.repr (clock k + 1))

lemma gapClock_mono {clock : Nat → Nat} (hg : GapClock clock) : Monotone clock :=
  monotone_nat_of_le_succ (fun k => by have := hg k; omega)

lemma gapClock_lt {clock : Nat → Nat} (hg : GapClock clock) {k j : Nat} (h : k < j) :
    clock k + 2 ≤ clock j := by
  have h1 := hg k
  have h2 := gapClock_mono hg (show k + 1 ≤ j from h)
  omega

lemma goodId_mono {clock : Nat → Nat} {n n2 : Nat} {s : String}
    (hs : GoodId clock n s) (h : n ≤ n2) : GoodId clock n2 s := by
  rcases hs with rfl | ⟨k, hk, hv⟩
  · exact Or.inl rfl
  · exact Or.inr ⟨k, by omega, hv⟩

lemma goodId_ne_vals {clock : Nat → Nat} (hg : GapClock clock) {n : Nat} {s : String}
    (hs : GoodId clock n s) {j : Nat} (hj : n ≤ j) :
    s ≠ Nat.repr (clock j) ∧ s ≠ Nat.repr (clock j + 1) := by
  rcases hs with rfl | ⟨k, hk, rfl | rfl⟩
  · exact ⟨fun h => repr_ne_welcome _ h.symm, fun h => repr_ne_welcome _ h.symm⟩
  · have := gapClock_lt hg (lt_of_lt_of_le hk hj)
    exact ⟨repr_ne_of_ne (by omega), repr_ne_of_ne (by omega)⟩
  · have := gapClock_lt hg (lt_of_lt_of_le hk hj)
    exact ⟨repr_ne_of_ne (by omega), repr_ne_of_ne (by omega)⟩

lemma goodId_ne_temp {clock : Nat → Nat} {n : Nat} {s : String}
    (hs : GoodId clock n s) : s ≠ "temp-video" := by
  rcases hs with rfl | ⟨k, _, rfl | rfl⟩
  · decide
  · exact repr_ne_tempvideo _
  · exact repr_ne_tempvideo _

lemma fresh_id_left {clock : Nat → Nat} (hg : GapClock clock) {n j : Nat} (hj : n ≤ j)
    {ms : List Message} (hgood : ∀ m ∈ ms, GoodId clock n m.id) :
    Nat.repr (clock j) ∉ ms.map (fun m => m.id) := by
  intro hmem
  rcases List.mem_map.mp hmem with ⟨m, hm, hid⟩
  exact (goodId_ne_vals hg (hgood m hm) hj).1 hid

lemma fresh_id_right {clock : Nat → Nat} (hg : GapClock clock) {n j : Nat} (hj : n ≤ j)
    {ms : List Message} (hgood : ∀ m ∈ ms, GoodId clock n m.id) :
    Nat.repr (clock j + 1) ∉ ms.map (fun m => m.id) := by
  intro hmem
  rcases List.mem_map.mp hmem with ⟨m, hm, hid⟩
  exact (goodId_ne_vals hg (hgood m hm) hj).2 hid

lemma temp_notin_ids {clock : Nat → Nat} {n : Nat} {ms : List Message}
    (hgood : ∀ m ∈ ms, GoodId clock n m.id) :
    "temp-video" ∉ ms.map (fun m => m.id) := by
  intro hmem
  rcases List.mem_map.mp hmem with ⟨m, hm, hid⟩
  exact goodId_ne_temp (hgood m hm) hid

lemma nodup_append_pair {l : List String} {x y : String} (hl : l.Nodup)
    (hx : x ∉ l) (hy : y ∉ l) (hxy : x ≠ y) : (l ++ [x, y]).Nodup := by
  rw [List.nodup_append]
  refine ⟨hl, by simp [hxy], ?_⟩
  intro a ha hmem
  rcases List.mem_cons.mp hmem with rfl | hmem2
  · exact hx ha
  · rcases List.mem_singleton.mp hmem2 with rfl
    exact hy ha

lemma reachF_ids {clock : Nat → Nat} (hg : GapClock clock) {n : Nat} {ms : List Message}
    (h : ReachF clock VideoSafe n ms) :
    (∀ m ∈ ms, GoodId clock n m.id) ∧ (ms.map (fun m => m.id)).Nodup := by
  induction h with
  | init =>
    refine ⟨?_, by simp⟩
    intro m hm
    rcases List.mem_singleton.mp hm with rfl
    exact Or.inl rfl
  | @step n0 ms0 p hR hP hacc ih =>
    obtain ⟨hgood, hnd⟩ := ih
    rcases submitCore_cases clock n0 p.caps p.ctx p.mode p.inp p.fl ms0 with
      ⟨rm, heq, hid, _, _, _⟩ | heq | ⟨rm, hvid, heq, hid, _, _, _⟩ | ⟨hvid, herr, heq⟩
    · rw [heq]; dsimp only
      constructor
      · intro m hm
        simp only [List.mem_append, List.mem_cons, List.not_mem_nil, or_false] at hm
        rcases hm with hm | rfl | rfl
        · exact goodId_mono (hgood m hm) (by omega)
        · exact Or.inr ⟨n0, by omega, Or.inl rfl⟩
        · exact Or.inr ⟨n0 + 2, by omega, Or.inr hid⟩
      · rw [List.map_append]
        simp only [List.map_cons, List.map_nil]
        refine nodup_append_pair hnd (fresh_id_left hg (le_refl n0) hgood) ?_ ?_
        · rw [hid]
          exact fresh_id_right hg (by omega) hgood
        · rw [hid]
          refine repr_ne_of_ne ?_
          have := gapClock_lt hg (show n0 < n0 + 2 by omega)
          omega
    · rw [heq]; dsimp only
      constructor
      · intro m hm
        simp only [List.mem_append, List.mem_cons, List.not_mem_nil, or_false] at hm
        rcases hm with hm | rfl | rfl
        · exact goodId_mono (hgood m hm) (by omega)
        · exact Or.inr ⟨n0, by omega, Or.inl rfl⟩
        · exact Or.inr ⟨n0 + 4, by omega, Or.inl rfl⟩
      · rw [List.map_append]
        simp only [List.map_cons, List.map_nil]
        refine nodup_append_pair hnd (fresh_id_left hg (le_refl n0) hgood)
          (fresh_id_left hg (by omega) hgood) (repr_ne_of_ne ?_)
        have := gapClock_lt hg (show n0 < n0 + 4 by omega)
        omega
    · rw [heq]; dsimp only
      have hgoodF : ∀ m ∈ ms0.filter (fun m => m.id != "temp-video"), GoodId clock n0 m.id :=
        fun m hm => hgood m (List.mem_of_mem_filter hm)
      have hndF : ((ms0.filter (fun m => m.id != "temp-video")).map (fun m => m.id)).Nodup :=
        List.Nodup.sublist (List.Sublist.map _ (List.filter_sublist ms0)) hnd
      constructor
      · intro m hm
        simp only [List.mem_append, List.mem_cons, List.not_mem_nil, or_false] at hm
        rcases hm with hm | rfl | rfl
        · exact goodId_mono (hgoodF m hm) (by omega)
        · exact Or.inr ⟨n0, by omega, Or.inl rfl⟩
        · exact Or.inr ⟨n0 + 2, by omega, Or.inr hid⟩
      · rw [List.map_append]
        simp only [List.map_cons, List.map_nil]
        refine nodup_append_pair hndF (fresh_id_left hg (le_refl n0) hgoodF) ?_ ?_
        · rw [hid]
          exact fresh_id_right hg (by omega) hgoodF
        · rw [hid]
          refine repr_ne_of_ne ?_
          have := gapClock_lt hg (show n0 < n0 + 2 by omega)
          omega
    · obtain ⟨v, hok⟩ := hP hvid
      rw [herr] at hok
      exact Except.noConfusion hok

/-- C6 amended: in every reachable transcript state — quiescent or
mid-lifecycle — all message ids are pairwise distinct, provided successive
clock reads are at least 2 apart and no VIDEO dispatch rejects (a rejecting
VIDEO dispatch orphans the `temp-video` placeholder, and the constant-clock
counterexample shows the unamended claim fails). -/
theorem reachable_ids_nodup (clock : Nat → Nat) (hg : GapClock clock)
    (ms : List Message) (h : ReachA clock VideoSafe ms) :
    (ms.map (fun m => m.id)).Nodup := by
  rcases h with ⟨n, hF⟩ | ⟨n, ms0, p, hF, hP, hacc, hsnap⟩
  · exact (reachF_ids hg hF).2
  · obtain ⟨hgood, hnd⟩ := reachF_ids hg hF
    have hfin := (reachF_ids hg (.step p hF hP hacc)).2
    rcases submitCore_cases clock n p.caps p.ctx p.mode p.inp p.fl ms0 with
      ⟨rm, heq, hid, _, _, _⟩ | heq | ⟨rm, hvid, heq, hid, _, _, _⟩ | ⟨hvid, herr, heq⟩ <;>
      rw [heq] at hsnap hfin <;>
      dsimp only at hsnap hfin <;>
      simp only [List.mem_cons, List.not_mem_nil, or_false] at hsnap
    · rcases hsnap with rfl | rfl
      · refine List.Nodup.sublist (List.Sublist.map _ ?_) hfin
        exact List.Sublist.append_left
          (List.Sublist.cons₂ _ (List.nil_sublist _)) _
      · exact hfin
    · rcases hsnap with rfl | rfl
      · refine List.Nodup.sublist (List.Sublist.map _ ?_) hfin
        exact List.Sublist.append_left
          (List.Sublist.cons₂ _ (List.nil_sublist _)) _
      · exact hfin
    · rcases hsnap with rfl | rfl | rfl | rfl
      · rw [List.map_append]
        simp only [List.map_cons, List.map_nil]
        have hone : (ms0.map (fun m => m.id) ++
            [(userMessage clock n p.inp p.fl).id, "temp-video"]).Nodup :=
          nodup_append_pair hnd (fresh_id_left hg (le_refl n) hgood)
            (temp_notin_ids hgood) (repr_ne_tempvideo (clock n))
        exact List.Nodup.sublist
          (List.Sublist.append_left (List.Sublist.cons₂ _ (List.nil_sublist _)) _) hone
      · rw [List.map_append]
        simp only [List.map_cons, List.map_nil]
        exact nodup_append_pair hnd (fresh_id_left hg (le_refl n) hgood)
          (temp_notin_ids hgood) (repr_ne_tempvideo (clock n))
      · refine List.Nodup.sublist (List.Sublist.map _ ?_) hfin
        exact List.Sublist.append_left
          (List.Sublist.cons₂ _ (List.nil_sublist _)) _
      · exact hfin
    · obtain ⟨v, hok⟩ := hP hvid
      rw [herr] at hok
      exact Except.noConfusion hok

/-- A clock with gap 2 between successive reads. -/
def gapTick : Nat → Nat := fun k => 2 * k

/-- Witness for the amended C6: after one accepted RESEARCH submission under
the gapped clock, all ids in the transcript are pairwise distinct. -/
theorem reachable_ids_nodup_witness :
    GapClock gapTick ∧
    (((submitCore gapTick 1 capsEmptyMedia ctx0 .RESEARCH "trends" (some refFile)
      [INITIAL_MESSAGE 0]).msgs.map (fun m => m.id)).Nodup) := by
  have hg : GapClock gapTick := by
    intro k
    simp [gapTick]
    omega
  refine ⟨hg, reachable_ids_nodup gapTick hg _
    (Or.inl ⟨_, .step ⟨capsEmptyMedia, ctx0, .RESEARCH, "trends", some refFile⟩ .init
      ?_ (acceptedInput_some "trends" refFile)⟩)⟩
  intro hmode
  exact absurd hmode (by decide)

end NexCraft
